import Mathlib

/-!
Verification of the Game of Life simulation core (`src/gameoflife.rs`).

The embedding models the widget state `GameOfLifeWidget { grid, diff }` and the
three core operations `generate_game`, `calculate_game` and `print_diff` as pure
Lean functions.  Machine integers are modelled by `Nat`: the viewport dimensions
come from `u16` fields of `Rect` (so they are below 2 ^ 16), the neighbor sum is
a `u8` that can reach at most 8, and the `u32` diff counter is stored reduced
`% 2 ^ 32` (it is bounded by `height * width < 2 ^ 32`, so the reduction is the
identity on every reachable value).  Rust panics (`copy_from_slice` on unequal
lengths, `chunks_exact_mut` with chunk size 0) are modelled by `Option.none`.
The `unsafe get_unchecked` slice reads are modelled by `List.getD` with default
`Dead`; the bounds theorems below show that on the guarded paths every such
index is inside the buffer, so the total model agrees with the partial one.
-/

/-- The two cell states of `enum GridCell`. -/
inductive GridCell : Type
  | Dead : GridCell
  | Alive : GridCell
deriving DecidableEq

/-- `GridCell::into(&self) -> u8`. -/
def GridCell.into : GridCell → Nat
  | GridCell.Dead => 0
  | GridCell.Alive => 1

/-- Read a cell of a buffer; models the `get_unchecked` reads (always performed
in bounds on the guarded paths, see the index-bound theorems). -/
def cellGet (l : List GridCell) (i : Nat) : GridCell :=
  l.getD i GridCell.Dead

/-- Index of the `up` neighbor read: `(y - 1) * len + x`. -/
def idxUp (w x y : Nat) : Nat := (y - 1) * w + x

/-- Index of the `upleft` neighbor read: `(y - 1) * len + x - 1`. -/
def idxUpLeft (w x y : Nat) : Nat := (y - 1) * w + x - 1

/-- Index of the `upright` neighbor read: `(y - 1) * len + x + 1`. -/
def idxUpRight (w x y : Nat) : Nat := (y - 1) * w + x + 1

/-- Index of the `down` neighbor read: `(y + 1) * len + x`. -/
def idxDown (w x y : Nat) : Nat := (y + 1) * w + x

/-- Index of the `downleft` neighbor read: `(y + 1) * len + x - 1`. -/
def idxDownLeft (w x y : Nat) : Nat := (y + 1) * w + x - 1

/-- Index of the `downright` neighbor read: `(y + 1) * len + x + 1`. -/
def idxDownRight (w x y : Nat) : Nat := (y + 1) * w + x + 1

/-- Index of the `left` neighbor read: `y * len + x - 1`. -/
def idxLeft (w x y : Nat) : Nat := y * w + x - 1

/-- Index of the `right` neighbor read: `y * len + x + 1`. -/
def idxRight (w x y : Nat) : Nat := y * w + x + 1

/-- Index of the center read: `y * len + x`. -/
def idxCenter (w x y : Nat) : Nat := y * w + x

/-- The `up` neighbor lookup of `calculate_game`. -/
def up (cached : List GridCell) (w x y : Nat) : GridCell :=
  if y = 0 then GridCell.Dead else cellGet cached (idxUp w x y)

/-- The `upleft` neighbor lookup of `calculate_game`. -/
def upleft (cached : List GridCell) (w x y : Nat) : GridCell :=
  if y = 0 ∨ x = 0 then GridCell.Dead else cellGet cached (idxUpLeft w x y)

/-- The `upright` neighbor lookup of `calculate_game`. -/
def upright (cached : List GridCell) (w x y : Nat) : GridCell :=
  if y = 0 ∨ x = w - 1 then GridCell.Dead else cellGet cached (idxUpRight w x y)

/-- The `down` neighbor lookup of `calculate_game`. -/
def down (cached : List GridCell) (w h x y : Nat) : GridCell :=
  if y = h - 1 then GridCell.Dead else cellGet cached (idxDown w x y)

/-- The `downleft` neighbor lookup of `calculate_game`. -/
def downleft (cached : List GridCell) (w h x y : Nat) : GridCell :=
  if y = h - 1 ∨ x = 0 then GridCell.Dead else cellGet cached (idxDownLeft w x y)

/-- The `downright` neighbor lookup of `calculate_game`. -/
def downright (cached : List GridCell) (w h x y : Nat) : GridCell :=
  if y = h - 1 ∨ x = w - 1 then GridCell.Dead else cellGet cached (idxDownRight w x y)

/-- The `left` neighbor lookup of `calculate_game`. -/
def left (cached : List GridCell) (w x y : Nat) : GridCell :=
  if x = 0 then GridCell.Dead else cellGet cached (idxLeft w x y)

/-- The `right` neighbor lookup of `calculate_game`. -/
def right (cached : List GridCell) (w x y : Nat) : GridCell :=
  if x = w - 1 then GridCell.Dead else cellGet cached (idxRight w x y)

/-- The `neighbors: u8` sum of `calculate_game`, in the source's order
`up + down + right + left + upleft + upright + downleft + downright`.
Each summand is 0 or 1, so the sum is at most 8 and the `u8` cannot wrap. -/
def neighborCount (cached : List GridCell) (w h x y : Nat) : Nat :=
  (up cached w x y).into + (down cached w h x y).into + (right cached w x y).into +
    (left cached w x y).into + (upleft cached w x y).into + (upright cached w x y).into +
    (downleft cached w h x y).into + (downright cached w h x y).into

/-- The `match (neighbors, cached)` of `calculate_game`, arm by arm:
`some v` means the arm writes `*cell = v` (and `diff` is incremented after the
match), `none` means the arm hits `continue`. -/
def applyRule (neighbors : Nat) (cached : GridCell) : Option GridCell :=
  if neighbors < 2 then
    match cached with
    | GridCell.Dead => none
    | GridCell.Alive => some GridCell.Dead
  else if neighbors = 2 ∨ neighbors = 3 then
    match cached with
    | GridCell.Alive => none
    | GridCell.Dead => if neighbors = 3 then some GridCell.Alive else none
  else
    match cached with
    | GridCell.Alive => some GridCell.Dead
    | GridCell.Dead => none

/-- One inner-loop iteration of `calculate_game` at cell `(x, y)`: reads only
`cached`, and either leaves the accumulated (grid, diff) pair alone
(`continue`) or writes the new cell value and increments the diff counter. -/
def stepCell (cached : List GridCell) (w h y x : Nat) (acc : List GridCell × Nat) :
    List GridCell × Nat :=
  match applyRule (neighborCount cached w h x y) (cellGet cached (idxCenter w x y)) with
  | none => acc
  | some v => (acc.1.set (idxCenter w x y) v, acc.2 + 1)

/-- The double loop of `calculate_game` after `cached.copy_from_slice(grid)`:
`grid.chunks_exact_mut(width)` yields `grid.len() / width` rows; the grid is
mutated in place while every read goes to the `cached` snapshot.  Returns the
final grid together with the `diff` count. -/
def calcStep (g : List GridCell) (w h : Nat) : List GridCell × Nat :=
  (List.range (g.length / w)).foldl
    (fun acc y => (List.range w).foldl (fun acc2 x => stepCell g w h y x acc2) acc)
    (g, 0)

/-- The widget state: `grid` holds the (current, scratch) pair, `diff` the
cached diff count (a `u32` in the source, stored here reduced `% 2 ^ 32`). -/
structure GameOfLifeWidget : Type where
  grid : Option (List GridCell × List GridCell)
  diff : Option Nat
deriving DecidableEq

/-- `GameOfLifeWidget::default()`: no grid, no diff. -/
def initWidget : GameOfLifeWidget := { grid := none, diff := none }

/-- The regeneration condition of `calculate_game`:
`self.grid.is_none() || self.grid.as_ref().is_some_and(|(grid, _)| grid.len() != height * width)`. -/
def needsRegen (grid : Option (List GridCell × List GridCell)) (width height : Nat) : Bool :=
  match grid with
  | none => true
  | some (g, _) => g.length != height * width

/-- `GameOfLifeWidget::generate_game`: builds a fresh random generation of
`height * width` cells (randomness is modelled by the boolean stream `rand`)
and replaces the grid with two copies of it.  `diff` is left untouched. -/
def generate_game (s : GameOfLifeWidget) (rand : Nat → Bool) (width height : Nat) :
    GameOfLifeWidget :=
  let g := (List.range (height * width)).map
    (fun i => if rand i then GridCell.Alive else GridCell.Dead)
  { grid := some (g, g), diff := s.diff }

/-- `GameOfLifeWidget::calculate_game` on viewport `width × height`.
`none` models a panic: `cached.copy_from_slice(grid)` panics when the two
buffers have different lengths, and `grid.chunks_exact_mut(width)` panics when
`width = 0`.  Otherwise the scratch buffer becomes a copy of the current
generation, the current generation is stepped in place, and the diff count is
recorded. -/
def calculate_game (s : GameOfLifeWidget) (rand : Nat → Bool) (width height : Nat) :
    Option GameOfLifeWidget :=
  if needsRegen s.grid width height then some (generate_game s rand width height)
  else
    match s.grid with
    | none => some s
    | some (g, c) =>
      if c.length ≠ g.length then none
      else if width = 0 then none
      else
        let r := calcStep g width height
        some { grid := some (r.1, g), diff := some (r.2 % 2 ^ 32) }

/-- The resize/regeneration phase of `calculate_game` (the spec's
`ensure_sized(width, height)`): regenerate exactly when no grid exists or the
current generation's length differs from `height * width`. -/
def ensure_sized (s : GameOfLifeWidget) (rand : Nat → Bool) (width height : Nat) :
    GameOfLifeWidget :=
  if needsRegen s.grid width height then generate_game s rand width height else s

/-- `GameOfLifeWidget::print_diff`: `self.diff.take()` — returns the observed
diff (displayed when present) and clears the stored one. -/
def print_diff (s : GameOfLifeWidget) : Option Nat × GameOfLifeWidget :=
  (s.diff, { s with diff := none })

/-- One render tick as driven by `App::render`: `calculate_game` on the game
area, then `print_diff` on the info area.  Returns the diff observed by the
render/info path and the post-tick state; `none` models a panic. -/
def tick (s : GameOfLifeWidget) (rand : Nat → Bool) (width height : Nat) :
    Option (Option Nat × GameOfLifeWidget) :=
  (calculate_game s rand width height).map print_diff

/-- A run of consecutive render ticks with per-tick viewport sizes and per-tick
randomness streams.  For each tick it records the diff observed by the
render/info path together with whether that tick regenerated the grid. -/
def runTicks (rands : Nat → Nat → Bool) (k : Nat) (sizes : List (Nat × Nat))
    (s : GameOfLifeWidget) : Option (List (Option Nat × Bool)) :=
  match sizes with
  | [] => some []
  | (w, h) :: rest =>
    match tick s (rands k) w h with
    | none => none
    | some (d, s1) =>
      (runTicks rands (k + 1) rest s1).map (fun l => (d, needsRegen s.grid w h) :: l)

/-- Conway's transition table exactly as the specification states it: an Alive
cell survives with 2 or 3 live neighbors and dies otherwise; a Dead cell is
born with exactly 3 live neighbors and stays Dead otherwise. -/
def conwayTable : GridCell → Nat → GridCell
  | GridCell.Alive, n => if n = 2 ∨ n = 3 then GridCell.Alive else GridCell.Dead
  | GridCell.Dead, n => if n = 3 then GridCell.Alive else GridCell.Dead

/-- The 8 neighbor offsets, as (dy, dx) pairs. -/
def neighborOffsets : List (Int × Int) :=
  [(-1, -1), (-1, 0), (-1, 1), (0, -1), (0, 1), (1, -1), (1, 0), (1, 1)]

/-- Modelled from the spec: whether the integer position `(xi, yi)` is inside
`[0, w) × [0, h)` and Alive; every position outside the rectangle counts as
Dead. -/
def aliveAt (g : List GridCell) (w h : Nat) (xi yi : Int) : Bool :=
  if 0 ≤ yi ∧ yi < (h : Int) ∧ 0 ≤ xi ∧ xi < (w : Int) then
    decide (cellGet g (yi.toNat * w + xi.toNat) = GridCell.Alive)
  else false

/-- Modelled from the spec: the number of Alive cells among the 8 adjacent
positions of `(x, y)`, any position outside `[0, w) × [0, h)` counting as Dead
(no wraparound). -/
def neighborCountSpec (g : List GridCell) (w h x y : Nat) : Nat :=
  neighborOffsets.countP (fun d => aliveAt g w h ((x : Int) + d.2) ((y : Int) + d.1))

/-- Modelled from the spec: the pure reference step — each cell of the next
generation is computed from the pre-step generation alone, by the spec's
neighbor count and transition table. -/
def stepPure (g : List GridCell) (w h : Nat) : List GridCell :=
  (List.range (h * w)).map
    (fun i => conwayTable (cellGet g i) (neighborCountSpec g w h (i % w) (i / w)))

/-- A grid with a single Alive cell in the corner (index 0) of an otherwise
Dead `w × h` grid. -/
def cornerGrid (w h : Nat) : List GridCell :=
  GridCell.Alive :: List.replicate (h * w - 1) GridCell.Dead

/-- The row-major enumeration of all cell positions `(y, x)` of an `h`-row,
`w`-column grid, in the order the double loop of `calculate_game` visits
them. -/
def allPositions : Nat → Nat → List (Nat × Nat)
  | 0, _ => []
  | h + 1, w => allPositions h w ++ (List.range w).map (fun x => (h, x))

/-- The generic fold of `stepCell` over an explicit list of positions. -/
def foldCells (cached : List GridCell) (w h : Nat) (ps : List (Nat × Nat))
    (acc : List GridCell × Nat) : List GridCell × Nat :=
  ps.foldl (fun a p => stepCell cached w h p.1 p.2 a) acc

theorem cellGet_set_self {l : List GridCell} {i : Nat} {v : GridCell} (h : i < l.length) :
    cellGet (l.set i v) i = v := by
  simp [cellGet, List.getD_eq_getElem?_getD, List.getElem?_set_self h]

theorem cellGet_set_ne {l : List GridCell} {i j : Nat} {v : GridCell} (h : i ≠ j) :
    cellGet (l.set i v) j = cellGet l j := by
  simp [cellGet, List.getD_eq_getElem?_getD, List.getElem?_set_ne h]

theorem cellGet_eq_getElem {l : List GridCell} {i : Nat} (h : i < l.length) :
    cellGet l i = l[i] := by
  simp [cellGet, List.getD_eq_getElem?_getD, List.getElem?_eq_getElem h]

theorem idx_lt {y h x w : Nat} (hy : y < h) (hx : x < w) : y * w + x < h * w := by
  have h1 : (y + 1) * w = y * w + w := Nat.succ_mul y w
  have h2 : (y + 1) * w ≤ h * w := Nat.mul_le_mul (Nat.succ_le_of_lt hy) (le_refl w)
  omega

theorem applyRule_eq (n : Nat) (c : GridCell) :
    applyRule n c = if conwayTable c n = c then none else some (conwayTable c n) := by
  by_cases hlt : n < 2 <;> by_cases h2 : n = 2 <;> by_cases h3 : n = 3 <;>
    cases c <;> simp [applyRule, conwayTable, hlt, h2, h3]

theorem applyRule_some {n : Nat} {c v : GridCell} (h : applyRule n c = some v) :
    v = conwayTable c n ∧ v ≠ c := by
  rw [applyRule_eq] at h
  by_cases hc : conwayTable c n = c
  · rw [if_pos hc] at h; exact absurd h (by simp)
  · rw [if_neg hc] at h
    have hv : conwayTable c n = v := by injection h
    subst hv; exact ⟨rfl, hc⟩

theorem applyRule_none {n : Nat} {c : GridCell} (h : applyRule n c = none) :
    conwayTable c n = c := by
  rw [applyRule_eq] at h
  by_cases hc : conwayTable c n = c
  · exact hc
  · rw [if_neg hc] at h; exact absurd h (by simp)

/-- Characterization of the set-or-skip fold over a list of cell positions with
pairwise distinct flat indices, all inside the buffer, whose cells still hold
their pre-step values: afterwards every listed cell holds the Conway successor
of its pre-step value, every other index is untouched, and the diff counter
grew by the number of writing positions. -/
theorem foldCells_char (cached : List GridCell) (w h : Nat) (ps : List (Nat × Nat)) :
    ∀ (cur : List GridCell) (d : Nat),
      cur.length = cached.length →
      (∀ p ∈ ps, idxCenter w p.2 p.1 < cached.length) →
      (∀ p ∈ ps, cellGet cur (idxCenter w p.2 p.1) = cellGet cached (idxCenter w p.2 p.1)) →
      ps.Pairwise (fun p q => idxCenter w p.2 p.1 ≠ idxCenter w q.2 q.1) →
      (foldCells cached w h ps (cur, d)).1.length = cur.length ∧
      (∀ p ∈ ps, cellGet (foldCells cached w h ps (cur, d)).1 (idxCenter w p.2 p.1) =
        conwayTable (cellGet cached (idxCenter w p.2 p.1)) (neighborCount cached w h p.2 p.1)) ∧
      (∀ i, (∀ p ∈ ps, idxCenter w p.2 p.1 ≠ i) →
        cellGet (foldCells cached w h ps (cur, d)).1 i = cellGet cur i) ∧
      (foldCells cached w h ps (cur, d)).2 =
        d + ps.countP (fun p =>
          (applyRule (neighborCount cached w h p.2 p.1)
            (cellGet cached (idxCenter w p.2 p.1))).isSome) := by
  induction ps with
  | nil =>
    intro cur d hlen _ _ _
    refine ⟨rfl, ?_, ?_, ?_⟩ <;> simp [foldCells]
  | cons p ps ih =>
    intro cur d hlen hbound htouch hpair
    rw [List.pairwise_cons] at hpair
    obtain ⟨hphead, hptail⟩ := hpair
    have hfc : foldCells cached w h (p :: ps) (cur, d) =
        foldCells cached w h ps (stepCell cached w h p.1 p.2 (cur, d)) := rfl
    cases hr : applyRule (neighborCount cached w h p.2 p.1)
        (cellGet cached (idxCenter w p.2 p.1)) with
    | none =>
      have hstep : stepCell cached w h p.1 p.2 (cur, d) = (cur, d) := by
        simp [stepCell, hr]
      rw [hfc, hstep]
      obtain ⟨ihlen, ihmem, ihun, ihdiff⟩ := ih cur d hlen
        (fun q hq => hbound q (List.mem_cons_of_mem _ hq))
        (fun q hq => htouch q (List.mem_cons_of_mem _ hq)) hptail
      refine ⟨ihlen, ?_, ?_, ?_⟩
      · intro q hq
        rcases List.mem_cons.mp hq with hq | hq
        · subst hq
          have hun := ihun (idxCenter w q.2 q.1) (fun r hr2 => Ne.symm (hphead r hr2))
          rw [hun, htouch q (List.mem_cons_self _ _), applyRule_none hr]
        · exact ihmem q hq
      · intro i hi
        exact ihun i (fun q hq => hi q (List.mem_cons_of_mem _ hq))
      · rw [ihdiff, List.countP_cons]
        simp [hr]
    | some v =>
      obtain ⟨hv, hvne⟩ := applyRule_some hr
      have hstep : stepCell cached w h p.1 p.2 (cur, d) =
          (cur.set (idxCenter w p.2 p.1) v, d + 1) := by
        simp [stepCell, hr]
      rw [hfc, hstep]
      have hlen' : (cur.set (idxCenter w p.2 p.1) v).length = cached.length := by
        rw [List.length_set]; exact hlen
      have htouch' : ∀ q ∈ ps,
          cellGet (cur.set (idxCenter w p.2 p.1) v) (idxCenter w q.2 q.1) =
            cellGet cached (idxCenter w q.2 q.1) := by
        intro q hq
        rw [cellGet_set_ne (hphead q hq)]
        exact htouch q (List.mem_cons_of_mem _ hq)
      obtain ⟨ihlen, ihmem, ihun, ihdiff⟩ := ih (cur.set (idxCenter w p.2 p.1) v) (d + 1) hlen'
        (fun q hq => hbound q (List.mem_cons_of_mem _ hq)) htouch' hptail
      refine ⟨?_, ?_, ?_, ?_⟩
      · rw [ihlen, List.length_set]
      · intro q hq
        rcases List.mem_cons.mp hq with hq | hq
        · subst hq
          have hun := ihun (idxCenter w q.2 q.1) (fun r hr2 => Ne.symm (hphead r hr2))
          have hblt : idxCenter w q.2 q.1 < cur.length := by
            rw [hlen]; exact hbound q (List.mem_cons_self _ _)
          rw [hun, cellGet_set_self hblt, hv]
        · exact ihmem q hq
      · intro i hi
        have hne : idxCenter w p.2 p.1 ≠ i := hi p (List.mem_cons_self _ _)
        rw [ihun i (fun q hq => hi q (List.mem_cons_of_mem _ hq)), cellGet_set_ne hne]
      · rw [ihdiff, List.countP_cons]
        simp [hr]
        omega

theorem allPositions_zero_w (h : Nat) : allPositions h 0 = [] := by
  induction h with
  | zero => rfl
  | succ h ih => simp [allPositions, ih]

theorem mem_allPositions {h w y x : Nat} : (y, x) ∈ allPositions h w ↔ y < h ∧ x < w := by
  induction h with
  | zero => simp [allPositions]
  | succ h ih =>
    simp only [allPositions, List.mem_append, List.mem_map, List.mem_range, ih]
    constructor
    · rintro (⟨hy, hx⟩ | ⟨x0, hx0, heq⟩)
      · exact ⟨Nat.lt_succ_of_lt hy, hx⟩
      · obtain ⟨h1, h2⟩ := Prod.mk.injEq .. ▸ heq
        subst h1; subst h2; exact ⟨Nat.lt_succ_self _, hx0⟩
    · rintro ⟨hy, hx⟩
      rcases Nat.lt_succ_iff_lt_or_eq.mp hy with hy | hy
      · exact Or.inl ⟨hy, hx⟩
      · subst hy; exact Or.inr ⟨x, hx, rfl⟩

theorem pairwise_allPositions (h w : Nat) :
    (allPositions h w).Pairwise
      (fun p q => idxCenter w p.2 p.1 ≠ idxCenter w q.2 q.1) := by
  induction h with
  | zero => simp [allPositions]
  | succ h ih =>
    rw [allPositions, List.pairwise_append]
    refine ⟨ih, ?_, ?_⟩
    · rw [List.pairwise_map]
      refine (List.pairwise_lt_range w).imp ?_
      intro a b hab
      simp only [idxCenter]
      omega
    · rintro ⟨py, px⟩ hp q hq
      rw [List.mem_map] at hq
      obtain ⟨xq, hxq, rfl⟩ := hq
      rw [List.mem_range] at hxq
      obtain ⟨hpy, hpx⟩ := mem_allPositions.mp hp
      have hlt : py * w + px < h * w := idx_lt hpy hpx
      simp only [idxCenter]
      omega

theorem map_idx_allPositions (h w : Nat) :
    (allPositions h w).map (fun p => idxCenter w p.2 p.1) = List.range (h * w) := by
  induction h with
  | zero => simp [allPositions]
  | succ h ih =>
    rw [allPositions, List.map_append, ih, List.map_map, Nat.succ_mul, List.range_add]
    congr 1

theorem foldCells_append (cached : List GridCell) (w h : Nat) (l1 l2 : List (Nat × Nat))
    (acc : List GridCell × Nat) :
    foldCells cached w h (l1 ++ l2) acc = foldCells cached w h l2 (foldCells cached w h l1 acc) :=
  List.foldl_append ..

theorem foldRows_eq_foldAll (cached : List GridCell) (w hh : Nat) :
    ∀ (k : Nat) (acc : List GridCell × Nat),
      (List.range k).foldl
          (fun acc y => (List.range w).foldl (fun a2 x => stepCell cached w hh y x a2) acc) acc =
        foldCells cached w hh (allPositions k w) acc := by
  intro k
  induction k with
  | zero => intro acc; rfl
  | succ k ih =>
    intro acc
    rw [List.range_succ, List.foldl_append, ih, allPositions, foldCells_append]
    simp only [List.foldl_cons, List.foldl_nil, foldCells, List.foldl_map]

theorem calcStep_eq_foldAll {g : List GridCell} {w h : Nat} (hlen : g.length = h * w) :
    calcStep g w h = foldCells g w h (allPositions h w) (g, 0) := by
  rcases Nat.eq_zero_or_pos w with hw | hw
  · subst hw
    rw [allPositions_zero_w]
    simp [calcStep, foldCells, Nat.div_zero]
  · have hdiv : g.length / w = h := by
      rw [hlen, Nat.mul_div_cancel _ hw]
    rw [calcStep, hdiv, foldRows_eq_foldAll]

/-- Master characterization of the evolution loop on a well-sized grid: each
cell of the result is the Conway successor of the pre-step cell, the length is
preserved, and the diff counter counts the writing positions. -/
theorem calcStep_char {g : List GridCell} {w h : Nat} (hlen : g.length = h * w) :
    (calcStep g w h).1.length = g.length ∧
    (∀ y x, y < h → x < w →
      cellGet (calcStep g w h).1 (idxCenter w x y) =
        conwayTable (cellGet g (idxCenter w x y)) (neighborCount g w h x y)) ∧
    (calcStep g w h).2 = (allPositions h w).countP (fun p =>
      (applyRule (neighborCount g w h p.2 p.1) (cellGet g (idxCenter w p.2 p.1))).isSome) := by
  have hb : ∀ p ∈ allPositions h w, idxCenter w p.2 p.1 < g.length := by
    rintro ⟨py, px⟩ hp
    obtain ⟨hpy, hpx⟩ := mem_allPositions.mp hp
    rw [hlen]
    exact idx_lt hpy hpx
  obtain ⟨h1, h2, _, h4⟩ := foldCells_char g w h (allPositions h w) g 0 rfl hb
    (fun p _ => rfl) (pairwise_allPositions h w)
  rw [calcStep_eq_foldAll hlen]
  refine ⟨h1, ?_, by rw [h4, Nat.zero_add]⟩
  intro y x hy hx
  exact h2 (y, x) (mem_allPositions.mpr ⟨hy, hx⟩)

theorem into_indicator (c : GridCell) : (if c = GridCell.Alive then 1 else 0) = c.into := by
  cases c <;> simp [GridCell.into]

theorem aliveAt_out (g : List GridCell) (w h : Nat) (xi yi : Int)
    (hout : yi < 0 ∨ (h : Int) ≤ yi ∨ xi < 0 ∨ (w : Int) ≤ xi) :
    aliveAt g w h xi yi = false := by
  unfold aliveAt
  split
  · exfalso; omega
  · rfl

theorem aliveAt_in (g : List GridCell) (w h xn yn : Nat) (xi yi : Int)
    (hx : xn < w) (hy : yn < h) (hxe : xi = (xn : Int)) (hye : yi = (yn : Int)) :
    aliveAt g w h xi yi = decide (cellGet g (yn * w + xn) = GridCell.Alive) := by
  subst hxe; subst hye
  unfold aliveAt
  split
  · rw [Int.toNat_natCast, Int.toNat_natCast]
  · exfalso; omega

theorem term_up (g : List GridCell) {w h x y : Nat} (hx : x < w) (hy : y < h) :
    (if aliveAt g w h ((x : Int) + 0) ((y : Int) + -1) then 1 else 0) = (up g w x y).into := by
  rcases Nat.eq_zero_or_pos y with hy0 | hy0
  · subst hy0
    rw [aliveAt_out g w h ((x : Int) + 0) (((0 : Nat) : Int) + -1) (by omega)]
    simp [up, GridCell.into]
  · have hne : y ≠ 0 := by omega
    rw [aliveAt_in g w h x (y - 1) ((x : Int) + 0) ((y : Int) + -1)
      hx (by omega) (by omega) (by omega)]
    rw [up, if_neg hne]
    simp only [decide_eq_true_eq]
    exact into_indicator _

theorem term_upleft (g : List GridCell) {w h x y : Nat} (hx : x < w) (hy : y < h) :
    (if aliveAt g w h ((x : Int) + -1) ((y : Int) + -1) then 1 else 0) =
      (upleft g w x y).into := by
  by_cases hg : y = 0 ∨ x = 0
  · rw [aliveAt_out g w h ((x : Int) + -1) ((y : Int) + -1) (by omega)]
    rw [upleft, if_pos hg]
    simp [GridCell.into]
  · push_neg at hg
    obtain ⟨hy0, hx0⟩ := hg
    rw [aliveAt_in g w h (x - 1) (y - 1) ((x : Int) + -1) ((y : Int) + -1)
      (by omega) (by omega) (by omega) (by omega)]
    rw [upleft, if_neg (not_or.mpr ⟨hy0, hx0⟩)]
    have hidx : idxUpLeft w x y = (y - 1) * w + (x - 1) := by
      unfold idxUpLeft; omega
    rw [hidx]
    simp only [decide_eq_true_eq]
    exact into_indicator _

theorem term_upright (g : List GridCell) {w h x y : Nat} (hx : x < w) (hy : y < h) :
    (if aliveAt g w h ((x : Int) + 1) ((y : Int) + -1) then 1 else 0) =
      (upright g w x y).into := by
  by_cases hg : y = 0 ∨ x = w - 1
  · rw [aliveAt_out g w h ((x : Int) + 1) ((y : Int) + -1) (by omega)]
    rw [upright, if_pos hg]
    simp [GridCell.into]
  · push_neg at hg
    obtain ⟨hy0, hx0⟩ := hg
    rw [aliveAt_in g w h (x + 1) (y - 1) ((x : Int) + 1) ((y : Int) + -1)
      (by omega) (by omega) (by omega) (by omega)]
    rw [upright, if_neg (not_or.mpr ⟨hy0, hx0⟩)]
    simp only [decide_eq_true_eq]
    exact into_indicator _

theorem term_down (g : List GridCell) {w h x y : Nat} (hx : x < w) (hy : y < h) :
    (if aliveAt g w h ((x : Int) + 0) ((y : Int) + 1) then 1 else 0) =
      (down g w h x y).into := by
  by_cases hg : y = h - 1
  · rw [aliveAt_out g w h ((x : Int) + 0) ((y : Int) + 1) (by omega)]
    rw [down, if_pos hg]
    simp [GridCell.into]
  · rw [aliveAt_in g w h x (y + 1) ((x : Int) + 0) ((y : Int) + 1)
      (by omega) (by omega) (by omega) (by omega)]
    rw [down, if_neg hg]
    simp only [decide_eq_true_eq]
    exact into_indicator _

theorem term_downleft (g : List GridCell) {w h x y : Nat} (hx : x < w) (hy : y < h) :
    (if aliveAt g w h ((x : Int) + -1) ((y : Int) + 1) then 1 else 0) =
      (downleft g w h x y).into := by
  by_cases hg : y = h - 1 ∨ x = 0
  · rw [aliveAt_out g w h ((x : Int) + -1) ((y : Int) + 1) (by omega)]
    rw [downleft, if_pos hg]
    simp [GridCell.into]
  · push_neg at hg
    obtain ⟨hy0, hx0⟩ := hg
    rw [aliveAt_in g w h (x - 1) (y + 1) ((x : Int) + -1) ((y : Int) + 1)
      (by omega) (by omega) (by omega) (by omega)]
    rw [downleft, if_neg (not_or.mpr ⟨hy0, hx0⟩)]
    have hidx : idxDownLeft w x y = (y + 1) * w + (x - 1) := by
      unfold idxDownLeft; omega
    rw [hidx]
    simp only [decide_eq_true_eq]
    exact into_indicator _

theorem term_downright (g : List GridCell) {w h x y : Nat} (hx : x < w) (hy : y < h) :
    (if aliveAt g w h ((x : Int) + 1) ((y : Int) + 1) then 1 else 0) =
      (downright g w h x y).into := by
  by_cases hg : y = h - 1 ∨ x = w - 1
  · rw [aliveAt_out g w h ((x : Int) + 1) ((y : Int) + 1) (by omega)]
    rw [downright, if_pos hg]
    simp [GridCell.into]
  · push_neg at hg
    obtain ⟨hy0, hx0⟩ := hg
    rw [aliveAt_in g w h (x + 1) (y + 1) ((x : Int) + 1) ((y : Int) + 1)
      (by omega) (by omega) (by omega) (by omega)]
    rw [downright, if_neg (not_or.mpr ⟨hy0, hx0⟩)]
    simp only [decide_eq_true_eq]
    exact into_indicator _

theorem term_left (g : List GridCell) {w h x y : Nat} (hx : x < w) (hy : y < h) :
    (if aliveAt g w h ((x : Int) + -1) ((y : Int) + 0) then 1 else 0) =
      (left g w x y).into := by
  by_cases hg : x = 0
  · rw [aliveAt_out g w h ((x : Int) + -1) ((y : Int) + 0) (by omega)]
    rw [left, if_pos hg]
    simp [GridCell.into]
  · rw [aliveAt_in g w h (x - 1) y ((x : Int) + -1) ((y : Int) + 0)
      (by omega) (by omega) (by omega) (by omega)]
    rw [left, if_neg hg]
    have hidx : idxLeft w x y = y * w + (x - 1) := by
      unfold idxLeft; omega
    rw [hidx]
    simp only [decide_eq_true_eq]
    exact into_indicator _

theorem term_right (g : List GridCell) {w h x y : Nat} (hx : x < w) (hy : y < h) :
    (if aliveAt g w h ((x : Int) + 1) ((y : Int) + 0) then 1 else 0) =
      (right g w x y).into := by
  by_cases hg : x = w - 1
  · rw [aliveAt_out g w h ((x : Int) + 1) ((y : Int) + 0) (by omega)]
    rw [right, if_pos hg]
    simp [GridCell.into]
  · rw [aliveAt_in g w h (x + 1) y ((x : Int) + 1) ((y : Int) + 0)
      (by omega) (by omega) (by omega) (by omega)]
    rw [right, if_neg hg]
    simp only [decide_eq_true_eq]
    exact into_indicator _

/-- The code's neighbor sum coincides with the spec's count of Alive cells
among the 8 adjacent positions with dead borders. -/
theorem neighborCount_eq_spec (g : List GridCell) {w h x y : Nat} (hx : x < w) (hy : y < h) :
    neighborCount g w h x y = neighborCountSpec g w h x y := by
  rw [neighborCountSpec, neighborOffsets]
  simp only [List.countP_cons, List.countP_nil]
  rw [term_up g hx hy, term_upleft g hx hy, term_upright g hx hy, term_down g hx hy,
    term_downleft g hx hy, term_downright g hx hy, term_left g hx hy, term_right g hx hy,
    neighborCount]
  omega

/-- On a well-formed state whose grid matches the viewport, `calculate_game`
takes the step path: the scratch buffer becomes the pre-step generation and
the current buffer is stepped, with the diff recorded. -/
theorem calculate_game_step_eq {s : GameOfLifeWidget} {g c : List GridCell} {w h : Nat}
    (rand : Nat → Bool) (hg : s.grid = some (g, c)) (hc : c.length = g.length)
    (hlen : g.length = h * w) (hw : 0 < w) :
    calculate_game s rand w h =
      some { grid := some ((calcStep g w h).1, g),
             diff := some ((calcStep g w h).2 % 2 ^ 32) } := by
  have hnr : needsRegen s.grid w h = false := by
    rw [hg]
    simp [needsRegen, hlen]
  rw [calculate_game, if_neg (by rw [hnr]; exact Bool.false_ne_true)]
  rw [hg]
  dsimp only
  rw [if_neg (show ¬c.length ≠ g.length from fun k => k hc)]
  rw [if_neg (Nat.pos_iff_ne_zero.mp hw)]

/-- The diff returned by the evolution loop is exactly the number of positions
whose value changed between the pre-step and post-step generations. -/
theorem calcStep_diff_counts_changes {g : List GridCell} {w h : Nat} (hlen : g.length = h * w) :
    (calcStep g w h).2 = (List.range (h * w)).countP
      (fun i => decide (cellGet (calcStep g w h).1 i ≠ cellGet g i)) := by
  obtain ⟨hl, hcell, hdiff⟩ := calcStep_char hlen
  rw [hdiff, ← map_idx_allPositions h w, List.countP_map]
  apply List.countP_congr
  rintro ⟨py, px⟩ hp
  obtain ⟨hpy, hpx⟩ := mem_allPositions.mp hp
  have hval := hcell py px hpy hpx
  simp only [Function.comp]
  cases hr : applyRule (neighborCount g w h px py) (cellGet g (idxCenter w px py)) with
  | none =>
    have heq := applyRule_none hr
    rw [hval, heq]
    simp
  | some v =>
    obtain ⟨hv, hvne⟩ := applyRule_some hr
    subst hv
    rw [hval]
    simp [hvne]

/-- C1: for every initialized grid of positive area (buffer length `h * w`),
one evolution step sets each cell `(x, y)` from its previous-generation state
and its count of Alive neighbors exactly per Conway's rule: Alive with 0 or 1
live neighbors becomes Dead, with 2 or 3 stays Alive, with 4 or more becomes
Dead; Dead with exactly 3 becomes Alive, otherwise stays Dead (the table
`conwayTable`). -/
theorem C1_step_follows_conway_rule {g : List GridCell} {w h x y : Nat}
    (hlen : g.length = h * w) (hy : y < h) (hx : x < w) :
    cellGet (calcStep g w h).1 (idxCenter w x y) =
      conwayTable (cellGet g (idxCenter w x y)) (neighborCount g w h x y) :=
  (calcStep_char hlen).2.1 y x hy hx

theorem C1_witness :
    ([GridCell.Alive, GridCell.Alive, GridCell.Dead] : List GridCell).length = 1 * 3 ∧
    (0 : Nat) < 1 ∧ (0 : Nat) < 3 ∧
    cellGet (calcStep [GridCell.Alive, GridCell.Alive, GridCell.Dead] 3 1).1 (idxCenter 3 0 0) =
      conwayTable (cellGet [GridCell.Alive, GridCell.Alive, GridCell.Dead] (idxCenter 3 0 0))
        (neighborCount [GridCell.Alive, GridCell.Alive, GridCell.Dead] 3 1 0 0) :=
  ⟨rfl, by decide, by decide, C1_step_follows_conway_rule rfl (by decide) (by decide)⟩

/-- C2: the in-place step (snapshot into scratch, then mutate the current
buffer cell-by-cell with all neighbor reads going to the snapshot) computes
exactly the next generation of the pure reference function `stepPure` applied
to the pre-step generation. -/
theorem C2_inplace_step_refines_pure {g : List GridCell} {w h : Nat}
    (hlen : g.length = h * w) :
    (calcStep g w h).1 = stepPure g w h := by
  have hlen1 : (calcStep g w h).1.length = h * w := by
    rw [(calcStep_char hlen).1, hlen]
  have hlen2 : (stepPure g w h).length = h * w := by
    rw [stepPure, List.length_map, List.length_range]
  apply List.ext_getElem (by rw [hlen1, hlen2])
  intro i hi1 hi2
  have hiw : i < h * w := by rw [← hlen1]; exact hi1
  have hw : 0 < w := by
    rcases Nat.eq_zero_or_pos w with h0 | h0
    · subst h0; omega
    · exact h0
  have hx : i % w < w := Nat.mod_lt _ hw
  have hy : i / w < h := by
    rw [Nat.div_lt_iff_lt_mul hw]
    omega
  have hidx : idxCenter w (i % w) (i / w) = i := by
    rw [idxCenter, Nat.mul_comm]
    exact Nat.div_add_mod i w
  have hrhs : (stepPure g w h)[i] =
      conwayTable (cellGet g i) (neighborCountSpec g w h (i % w) (i / w)) := by
    simp [stepPure, List.getElem_map]
  rw [hrhs, ← cellGet_eq_getElem hi1]
  have hcell := (calcStep_char hlen).2.1 (i / w) (i % w) hy hx
  rw [hidx] at hcell
  rw [hcell, neighborCount_eq_spec g hx hy]

theorem C2_witness :
    ([GridCell.Alive, GridCell.Dead, GridCell.Dead, GridCell.Alive] : List GridCell).length =
      2 * 2 ∧
    (calcStep [GridCell.Alive, GridCell.Dead, GridCell.Dead, GridCell.Alive] 2 2).1 =
      stepPure [GridCell.Alive, GridCell.Dead, GridCell.Dead, GridCell.Alive] 2 2 :=
  ⟨rfl, C2_inplace_step_refines_pure rfl⟩

/-- C10: under the iteration bounds `y < h`, `x < w` of the step loop, every
guarded unchecked scratch read (the 8 neighbor reads and the center read)
computes an index strictly below `h * w`, the buffer length, so the unsafe
indexing never reads out of bounds. -/
theorem C10_unchecked_reads_in_bounds {w h x y : Nat} (hy : y < h) (hx : x < w) :
    (y ≠ 0 → idxUp w x y < h * w) ∧
    (¬(y = 0 ∨ x = 0) → idxUpLeft w x y < h * w) ∧
    (¬(y = 0 ∨ x = w - 1) → idxUpRight w x y < h * w) ∧
    (y ≠ h - 1 → idxDown w x y < h * w) ∧
    (¬(y = h - 1 ∨ x = 0) → idxDownLeft w x y < h * w) ∧
    (¬(y = h - 1 ∨ x = w - 1) → idxDownRight w x y < h * w) ∧
    (x ≠ 0 → idxLeft w x y < h * w) ∧
    (x ≠ w - 1 → idxRight w x y < h * w) ∧
    idxCenter w x y < h * w := by
  refine ⟨?_, ?_, ?_, ?_, ?_, ?_, ?_, ?_, idx_lt hy hx⟩
  · intro h0
    have := idx_lt (show y - 1 < h by omega) hx
    unfold idxUp; omega
  · intro hgd
    rw [not_or] at hgd
    have := idx_lt (show y - 1 < h by omega) (show x - 1 < w by omega)
    unfold idxUpLeft; omega
  · intro hgd
    rw [not_or] at hgd
    have := idx_lt (show y - 1 < h by omega) (show x + 1 < w by omega)
    unfold idxUpRight; omega
  · intro h0
    have := idx_lt (show y + 1 < h by omega) hx
    unfold idxDown; omega
  · intro hgd
    rw [not_or] at hgd
    have := idx_lt (show y + 1 < h by omega) (show x - 1 < w by omega)
    unfold idxDownLeft; omega
  · intro hgd
    rw [not_or] at hgd
    have := idx_lt (show y + 1 < h by omega) (show x + 1 < w by omega)
    unfold idxDownRight; omega
  · intro h0
    have := idx_lt hy (show x - 1 < w by omega)
    unfold idxLeft; omega
  · intro h0
    have := idx_lt hy (show x + 1 < w by omega)
    unfold idxRight; omega

theorem C10_witness :
    (1 : Nat) < 3 ∧ (1 : Nat) < 3 ∧
    (((1 : Nat) ≠ 0 → idxUp 3 1 1 < 3 * 3) ∧
    (¬((1 : Nat) = 0 ∨ (1 : Nat) = 0) → idxUpLeft 3 1 1 < 3 * 3) ∧
    (¬((1 : Nat) = 0 ∨ (1 : Nat) = 3 - 1) → idxUpRight 3 1 1 < 3 * 3) ∧
    ((1 : Nat) ≠ 3 - 1 → idxDown 3 1 1 < 3 * 3) ∧
    (¬((1 : Nat) = 3 - 1 ∨ (1 : Nat) = 0) → idxDownLeft 3 1 1 < 3 * 3) ∧
    (¬((1 : Nat) = 3 - 1 ∨ (1 : Nat) = 3 - 1) → idxDownRight 3 1 1 < 3 * 3) ∧
    ((1 : Nat) ≠ 0 → idxLeft 3 1 1 < 3 * 3) ∧
    ((1 : Nat) ≠ 3 - 1 → idxRight 3 1 1 < 3 * 3) ∧
    idxCenter 3 1 1 < 3 * 3) :=
  ⟨by decide, by decide, C10_unchecked_reads_in_bounds (by decide) (by decide)⟩

theorem cellGet_cornerGrid_ne {w h i : Nat} (hi : i ≠ 0) :
    cellGet (cornerGrid w h) i = GridCell.Dead := by
  obtain ⟨j, rfl⟩ : ∃ j, i = j + 1 := ⟨i - 1, by omega⟩
  rw [cellGet, cornerGrid, List.getD_eq_getElem?_getD, List.getElem?_cons_succ,
    List.getElem?_replicate]
  by_cases hj : j < h * w - 1
  · rw [if_pos hj]; rfl
  · rw [if_neg hj]; rfl

/-- C4: neighbor counting coincides with the spec's count over the 8 adjacent
positions with every out-of-range position treated as Dead (no wraparound);
in particular a single Alive cell in the corner of an otherwise Dead grid has
0 Alive neighbors and dies after one step. -/
theorem C4_dead_border_no_wraparound {w h : Nat} (hw : 0 < w) (hh : 0 < h) :
    (∀ (g : List GridCell) (x y : Nat), x < w → y < h →
      neighborCount g w h x y = neighborCountSpec g w h x y) ∧
    neighborCount (cornerGrid w h) w h 0 0 = 0 ∧
    cellGet (calcStep (cornerGrid w h) w h).1 (idxCenter w 0 0) = GridCell.Dead := by
  have hup : up (cornerGrid w h) w 0 0 = GridCell.Dead := by rw [up, if_pos rfl]
  have hupl : upleft (cornerGrid w h) w 0 0 = GridCell.Dead := by
    rw [upleft, if_pos (Or.inl rfl)]
  have hupr : upright (cornerGrid w h) w 0 0 = GridCell.Dead := by
    rw [upright, if_pos (Or.inl rfl)]
  have hleft : left (cornerGrid w h) w 0 0 = GridCell.Dead := by rw [left, if_pos rfl]
  have hdl : downleft (cornerGrid w h) w h 0 0 = GridCell.Dead := by
    rw [downleft, if_pos (Or.inr rfl)]
  have hdown : down (cornerGrid w h) w h 0 0 = GridCell.Dead := by
    by_cases h1 : (0 : Nat) = h - 1
    · rw [down, if_pos h1]
    · have hi : idxDown w 0 0 ≠ 0 := by unfold idxDown; omega
      rw [down, if_neg h1]
      exact cellGet_cornerGrid_ne hi
  have hright : right (cornerGrid w h) w 0 0 = GridCell.Dead := by
    by_cases h1 : (0 : Nat) = w - 1
    · rw [right, if_pos h1]
    · have hi : idxRight w 0 0 ≠ 0 := by unfold idxRight; omega
      rw [right, if_neg h1]
      exact cellGet_cornerGrid_ne hi
  have hdr : downright (cornerGrid w h) w h 0 0 = GridCell.Dead := by
    by_cases h1 : (0 : Nat) = h - 1 ∨ (0 : Nat) = w - 1
    · rw [downright, if_pos h1]
    · have hi : idxDownRight w 0 0 ≠ 0 := by unfold idxDownRight; omega
      rw [downright, if_neg h1]
      exact cellGet_cornerGrid_ne hi
  have hnc0 : neighborCount (cornerGrid w h) w h 0 0 = 0 := by
    rw [neighborCount, hup, hdown, hright, hleft, hupl, hupr, hdl, hdr]
    rfl
  refine ⟨fun g x y hx hy => neighborCount_eq_spec g hx hy, hnc0, ?_⟩
  have hclen : (cornerGrid w h).length = h * w := by
    have hpos : 0 < h * w := Nat.mul_pos hh hw
    rw [cornerGrid, List.length_cons, List.length_replicate]
    omega
  have hcc := (calcStep_char hclen).2.1 0 0 hh hw
  have hc0 : idxCenter w 0 0 = 0 := by unfold idxCenter; omega
  rw [hcc, hnc0, hc0]
  rfl

theorem C4_witness :
    (0 : Nat) < 2 ∧ (0 : Nat) < 3 ∧
    ((∀ (g : List GridCell) (x y : Nat), x < 2 → y < 3 →
      neighborCount g 2 3 x y = neighborCountSpec g 2 3 x y) ∧
    neighborCount (cornerGrid 2 3) 2 3 0 0 = 0 ∧
    cellGet (calcStep (cornerGrid 2 3) 2 3).1 (idxCenter 2 0 0) = GridCell.Dead) :=
  ⟨by decide, by decide, C4_dead_border_no_wraparound (by decide) (by decide)⟩

/-- C3: on a step (no regeneration), the reported diff equals exactly the
number of cell positions whose state after the step differs from their state
before the step.  The `u16` viewport bounds make the `u32` counter exact. -/
theorem C3_diff_equals_changed_cells {s : GameOfLifeWidget} {g c : List GridCell} {w h : Nat}
    (rand : Nat → Bool) (hg : s.grid = some (g, c)) (hc : c.length = g.length)
    (hlen : g.length = h * w) (hw : 0 < w) (hwb : w < 2 ^ 16) (hhb : h < 2 ^ 16) :
    calculate_game s rand w h =
      some { grid := some ((calcStep g w h).1, g),
             diff := some ((List.range (h * w)).countP
               (fun i => decide (cellGet (calcStep g w h).1 i ≠ cellGet g i))) } := by
  rw [calculate_game_step_eq rand hg hc hlen hw]
  have hcount := calcStep_diff_counts_changes hlen
  have hle : (calcStep g w h).2 ≤ h * w := by
    rw [hcount]
    calc (List.range (h * w)).countP _ ≤ (List.range (h * w)).length :=
          List.countP_le_length _
      _ = h * w := List.length_range ..
  have hlt : (calcStep g w h).2 < 2 ^ 32 := by
    have hmul : h * w < 2 ^ 16 * 2 ^ 16 := by
      rcases Nat.eq_zero_or_pos h with h0 | h0
      · subst h0
        rw [Nat.zero_mul]
        norm_num
      · exact Nat.mul_lt_mul_of_lt_of_le hhb (Nat.le_of_lt hwb) (by norm_num)
    have : (2 : Nat) ^ 16 * 2 ^ 16 = 2 ^ 32 := by norm_num
    omega
  rw [Nat.mod_eq_of_lt hlt, hcount]

theorem C3_witness :
    ({ grid := some ([GridCell.Alive, GridCell.Alive], [GridCell.Alive, GridCell.Alive]),
       diff := none } : GameOfLifeWidget).grid =
      some ([GridCell.Alive, GridCell.Alive], [GridCell.Alive, GridCell.Alive]) ∧
    ([GridCell.Alive, GridCell.Alive] : List GridCell).length =
      ([GridCell.Alive, GridCell.Alive] : List GridCell).length ∧
    ([GridCell.Alive, GridCell.Alive] : List GridCell).length = 1 * 2 ∧
    (0 : Nat) < 2 ∧ (2 : Nat) < 2 ^ 16 ∧ (1 : Nat) < 2 ^ 16 ∧
    calculate_game
      { grid := some ([GridCell.Alive, GridCell.Alive], [GridCell.Alive, GridCell.Alive]),
        diff := none } (fun _ => false) 2 1 =
      some { grid := some ((calcStep [GridCell.Alive, GridCell.Alive] 2 1).1,
               [GridCell.Alive, GridCell.Alive]),
             diff := some ((List.range (1 * 2)).countP
               (fun i => decide (cellGet (calcStep [GridCell.Alive, GridCell.Alive] 2 1).1 i ≠
                 cellGet [GridCell.Alive, GridCell.Alive] i))) } :=
  ⟨rfl, rfl, rfl, by decide, by decide, by decide,
    C3_diff_equals_changed_cells (fun _ => false) rfl rfl rfl (by decide) (by decide) (by decide)⟩

/-- C5 (refuted by the code): the spec promises that a zero-area viewport is a
panic-free no-op, but with `width = 0` the step path calls
`chunks_exact_mut(0)`, which panics in Rust.  First conjunct: the first tick on
a 0×1 viewport builds the empty grid without error; second conjunct: the next
tick on the same viewport hits the panic (modelled as `none`). -/
theorem C5_zero_width_step_panics :
    calculate_game initWidget (fun _ => false) 0 1 =
      some { grid := some ([], []), diff := none } ∧
    calculate_game { grid := some ([], []), diff := none } (fun _ => false) 0 1 = none :=
  ⟨rfl, rfl⟩

/-- C5, positive part: a zero-area viewport with positive width (height 0) is
indeed a panic-free no-op reporting diff 0 on the empty grid. -/
theorem C5_zero_height_step_noop (w : Nat) (hw : 0 < w) (rand : Nat → Bool) :
    calculate_game { grid := some ([], []), diff := none } rand w 0 =
      some { grid := some ([], []), diff := some 0 } := by
  have hstep : calcStep ([] : List GridCell) w 0 = ([], 0) := by
    rw [calcStep]
    simp
  rw [calculate_game_step_eq rand rfl rfl (by simp) hw, hstep]
  rfl

theorem C5_zero_height_witness :
    (0 : Nat) < 3 ∧
    calculate_game { grid := some ([], []), diff := none } (fun _ => false) 3 0 =
      some { grid := some ([], []), diff := some 0 } :=
  ⟨by decide, C5_zero_height_step_noop 3 (by decide) (fun _ => false)⟩

/-- C6: `ensure_sized` (the resize/regeneration phase) always leaves a current
generation of length exactly `w * h`, and regeneration happens exactly when no
grid exists or the existing current generation's length differs from
`w * h`. -/
theorem C6_ensure_sized_length_and_regen (s : GameOfLifeWidget) (rand : Nat → Bool)
    (w h : Nat) :
    (needsRegen s.grid w h = true ↔
      s.grid = none ∨ ∃ g c, s.grid = some (g, c) ∧ g.length ≠ w * h) ∧
    (needsRegen s.grid w h = true →
      ensure_sized s rand w h = generate_game s rand w h) ∧
    (needsRegen s.grid w h = false → ensure_sized s rand w h = s) ∧
    ∃ g c, (ensure_sized s rand w h).grid = some (g, c) ∧ g.length = w * h := by
  refine ⟨?_, ?_, ?_, ?_⟩
  · constructor
    · intro hr
      cases hsg : s.grid with
      | none => exact Or.inl rfl
      | some gc =>
        obtain ⟨g, c⟩ := gc
        refine Or.inr ⟨g, c, rfl, ?_⟩
        rw [hsg] at hr
        simp only [needsRegen, bne_iff_ne] at hr
        rw [Nat.mul_comm]
        exact hr
    · intro hor
      rcases hor with hnone | ⟨g, c, hsome, hne⟩
      · rw [hnone]; rfl
      · rw [hsome]
        simp only [needsRegen, bne_iff_ne]
        rw [Nat.mul_comm]
        exact hne
  · intro hr
    rw [ensure_sized, if_pos hr]
  · intro hr
    rw [ensure_sized, if_neg (by rw [hr]; exact Bool.false_ne_true)]
  · by_cases hr : needsRegen s.grid w h = true
    · rw [ensure_sized, if_pos hr]
      refine ⟨_, _, rfl, ?_⟩
      simp [generate_game, Nat.mul_comm]
    · rw [ensure_sized, if_neg hr]
      cases hsg : s.grid with
      | none => rw [hsg] at hr; exact absurd rfl hr
      | some gc =>
        obtain ⟨g, c⟩ := gc
        refine ⟨g, c, rfl, ?_⟩
        rw [hsg] at hr
        simp only [needsRegen, bne_iff_ne, not_not] at hr
        rw [Nat.mul_comm]
        exact hr

theorem C6_witness :
    (needsRegen initWidget.grid 2 2 = true ↔
      initWidget.grid = none ∨
        ∃ g c, initWidget.grid = some (g, c) ∧ g.length ≠ 2 * 2) ∧
    (needsRegen initWidget.grid 2 2 = true →
      ensure_sized initWidget (fun _ => true) 2 2 = generate_game initWidget (fun _ => true) 2 2) ∧
    (needsRegen initWidget.grid 2 2 = false → ensure_sized initWidget (fun _ => true) 2 2 =
      initWidget) ∧
    ∃ g c, (ensure_sized initWidget (fun _ => true) 2 2).grid = some (g, c) ∧
      g.length = 2 * 2 :=
  C6_ensure_sized_length_and_regen initWidget (fun _ => true) 2 2

/-- C7: calling `ensure_sized` twice with the same `(w, h)` on an
already-correctly-sized grid performs no regeneration; the state (hence the
grid contents) is unchanged by both calls. -/
theorem C7_ensure_sized_idempotent {s : GameOfLifeWidget} {g c : List GridCell} {w h : Nat}
    (r1 r2 : Nat → Bool) (hg : s.grid = some (g, c)) (hlen : g.length = w * h) :
    ensure_sized s r1 w h = s ∧ ensure_sized (ensure_sized s r1 w h) r2 w h = s := by
  have hnr : needsRegen s.grid w h = false := by
    rw [hg]
    simp [needsRegen, hlen, Nat.mul_comm]
  have h1 : ensure_sized s r1 w h = s := by
    rw [ensure_sized, if_neg (by rw [hnr]; exact Bool.false_ne_true)]
  refine ⟨h1, ?_⟩
  rw [h1, ensure_sized, if_neg (by rw [hnr]; exact Bool.false_ne_true)]

theorem C7_witness :
    ({ grid := some ([GridCell.Dead], [GridCell.Dead]), diff := none } :
        GameOfLifeWidget).grid = some ([GridCell.Dead], [GridCell.Dead]) ∧
    ([GridCell.Dead] : List GridCell).length = 1 * 1 ∧
    (ensure_sized { grid := some ([GridCell.Dead], [GridCell.Dead]), diff := none }
        (fun _ => true) 1 1 =
      { grid := some ([GridCell.Dead], [GridCell.Dead]), diff := none } ∧
    ensure_sized (ensure_sized { grid := some ([GridCell.Dead], [GridCell.Dead]), diff := none }
        (fun _ => true) 1 1) (fun _ => false) 1 1 =
      { grid := some ([GridCell.Dead], [GridCell.Dead]), diff := none }) :=
  ⟨rfl, rfl, C7_ensure_sized_idempotent (fun _ => true) (fun _ => false) rfl rfl⟩

/-- C9: whenever `calculate_game` completes without panic, the resulting state
holds a grid pair whose two buffers both have length exactly `w * h`, the
viewport area just observed — both on the regeneration path and on the
evolution-step path. -/
theorem C9_buffers_same_length {s s' : GameOfLifeWidget} {w h : Nat} (rand : Nat → Bool)
    (hstep : calculate_game s rand w h = some s') :
    ∃ g c, s'.grid = some (g, c) ∧ g.length = w * h ∧ c.length = w * h := by
  by_cases hr : needsRegen s.grid w h = true
  · rw [calculate_game, if_pos hr] at hstep
    injection hstep with hs
    subst hs
    refine ⟨_, _, rfl, ?_, ?_⟩ <;> simp [generate_game, Nat.mul_comm]
  · rw [calculate_game, if_neg hr] at hstep
    cases hsg : s.grid with
    | none => rw [hsg] at hr; exact absurd rfl hr
    | some gc =>
      obtain ⟨g, c⟩ := gc
      rw [hsg] at hstep hr
      simp only [needsRegen, bne_iff_ne, not_not] at hr
      dsimp only at hstep
      split_ifs at hstep with h1 h2
      injection hstep with hs
      subst hs
      refine ⟨_, _, rfl, ?_, ?_⟩
      · rw [(calcStep_char hr).1, hr, Nat.mul_comm]
      · rw [hr, Nat.mul_comm]

theorem C9_witness :
    calculate_game { grid := some ([GridCell.Dead], [GridCell.Dead]), diff := none }
        (fun _ => false) 1 1 =
      some { grid := some ([GridCell.Dead], [GridCell.Dead]), diff := some 0 } ∧
    ∃ g c, ({ grid := some ([GridCell.Dead], [GridCell.Dead]), diff := some 0 } :
        GameOfLifeWidget).grid = some (g, c) ∧ g.length = 1 * 1 ∧ c.length = 1 * 1 :=
  ⟨by decide, C9_buffers_same_length (fun _ => false)
    (show calculate_game { grid := some ([GridCell.Dead], [GridCell.Dead]), diff := none }
        (fun _ => false) 1 1 =
      some { grid := some ([GridCell.Dead], [GridCell.Dead]), diff := some 0 } by decide)⟩

/-- `print_diff` always clears the stored diff, so the post-tick state carries
none. -/
theorem tick_diff_none {s s1 : GameOfLifeWidget} {d : Option Nat} {r : Nat → Bool}
    {w h : Nat} (ht : tick s r w h = some (d, s1)) : s1.diff = none := by
  rw [tick] at ht
  cases hc : calculate_game s r w h with
  | none => rw [hc] at ht; exact Option.noConfusion ht
  | some u =>
    rw [hc] at ht
    injection ht with hpair
    rw [print_diff] at hpair
    have hs1 : ({ u with diff := none } : GameOfLifeWidget) = s1 :=
      congrArg Prod.snd hpair
    rw [← hs1]

/-- On a regenerating tick the observed diff is whatever the state carried
before the tick (`generate_game` does not touch the diff field). -/
theorem tick_regen_observed {s s1 : GameOfLifeWidget} {d : Option Nat} {r : Nat → Bool}
    {w h : Nat} (hr : needsRegen s.grid w h = true) (ht : tick s r w h = some (d, s1)) :
    d = s.diff := by
  rw [tick, calculate_game, if_pos hr] at ht
  injection ht with hpair
  rw [print_diff] at hpair
  have hd : (generate_game s r w h).diff = d := congrArg Prod.fst hpair
  rw [← hd]
  rfl

theorem runTicks_regen_diff_none (rands : Nat → Nat → Bool) :
    ∀ (sizes : List (Nat × Nat)) (k : Nat) (s : GameOfLifeWidget), s.diff = none →
      ∀ out, runTicks rands k sizes s = some out →
        ∀ p ∈ out, p.2 = true → p.1 = none := by
  intro sizes
  induction sizes with
  | nil =>
    intro k s hd out hrun p hp
    rw [runTicks] at hrun
    injection hrun with h1
    subst h1
    exact absurd hp (List.not_mem_nil p)
  | cons wh rest ih =>
    intro k s hd out hrun p hp hregen
    obtain ⟨w, h⟩ := wh
    rw [runTicks] at hrun
    cases ht : tick s (rands k) w h with
    | none => rw [ht] at hrun; exact Option.noConfusion hrun
    | some ds1 =>
      obtain ⟨d, s1⟩ := ds1
      rw [ht] at hrun
      dsimp only at hrun
      cases hrest : runTicks rands (k + 1) rest s1 with
      | none => rw [hrest] at hrun; exact Option.noConfusion hrun
      | some l =>
        rw [hrest] at hrun
        injection hrun with h1
        subst h1
        rcases List.mem_cons.mp hp with hph | hpt
        · subst hph
          dsimp only at hregen ⊢
          rw [tick_regen_observed hregen ht, hd]
        · exact ih (k + 1) s1 (tick_diff_none ht) l hrest p hpt hregen

/-- C8: in any run of render ticks from the initial state, every tick that
regenerates the grid (first initialization or dimension mismatch) observes no
diff on the render/info path: any diff produced by a prior generation's step
was already consumed, so nothing from before the replacement is observable. -/
theorem C8_regen_tick_observes_no_stale_diff (rands : Nat → Nat → Bool)
    (sizes : List (Nat × Nat)) (out : List (Option Nat × Bool))
    (hrun : runTicks rands 0 sizes initWidget = some out) :
    ∀ p ∈ out, p.2 = true → p.1 = none :=
  runTicks_regen_diff_none rands sizes 0 initWidget rfl out hrun

theorem C8_witness :
    runTicks (fun _ _ => false) 0 [(1, 1), (2, 1)] initWidget =
      some [((none : Option Nat), true), (none, true)] ∧
    ∀ p ∈ [((none : Option Nat), true), (none, true)], p.2 = true → p.1 = none :=
  ⟨by decide, C8_regen_tick_observes_no_stale_diff (fun _ _ => false) [(1, 1), (2, 1)]
    [(none, true), (none, true)] (by decide)⟩
